import Mathlib

/-!
Verification of the xflight in-flight registry.

The embedding models `src/src/index.ts` (class `Inflight`) and, for the
refinement claim, `src/lib/index.js`.  JavaScript promises are abstract
tokens identified by a natural number, so that "the identical future
instance" is expressible; a factory is pure data describing what the
single call `promiseFactory()` would do (throw synchronously, or return
a value).  A factory's return value is partitioned by what the two
assertions inspect: a promise token (truthy, with a function-valued
`then`), a `JSVal.fakeThenable` (truthy, with a truthy `then` that is
not callable, e.g. `{ then: 1 }`), or a `JSVal.nonThenable` (its `then`
is absent or falsy) carrying its truthiness.  The TypeScript assertion
`typeof p.then === "function"` rejects the latter two; the JavaScript
assertion `p && p.then` lets a fake thenable through, registers it, and
only then throws a TypeError when `.then(remove, remove)` is called on
it.  `Date.now()` is passed in explicitly as the
`currentTime` argument of each operation that consults the clock.
JavaScript objects used as dictionaries (`this._inflights`) are
association lists of `String × Option InflightItem`: a key mapped to
`none` models an explicit `undefined` value (as written by `remove`),
while absence from the list models a key never set; `obj[key]` sees
both as `undefined`, which `getProp` reflects by joining the lookup.
A numeric argument defaulted with `now || Date.now()` falls back to the
clock when the argument is absent OR zero (`0` is falsy in JavaScript):
`jsOrNum` reflects that.
-/

namespace XFlight

/-- `InflightItem<T>` of `src/src/index.ts`: `start`, `lastXTime`, and the
tracked promise `value` (a token). -/
structure InflightItem where
  start : Int
  lastXTime : Int
  value : Nat
  deriving Repr, DecidableEq

/-- The mutable state of class `Inflight`: `_count` and `_inflights`. -/
structure Inflight where
  _count : Int
  _inflights : List (String × Option InflightItem)
  deriving Repr, DecidableEq

/-- The state `new Inflight()` starts from: `_count = 0`, `_inflights = {}`. -/
def Inflight.init : Inflight := { _count := 0, _inflights := [] }

/-- Raw property read on the object: the first binding for `key`, if the
key was ever set (even to `undefined`). -/
def getEntry : List (String × Option InflightItem) → String → Option (Option InflightItem)
  | [], _ => none
  | (k, v) :: rest, key => if k = key then some v else getEntry rest key

/-- `obj[key]` as the TypeScript code observes it: `none` when the key is
absent or explicitly set to `undefined`. -/
def getProp (obj : List (String × Option InflightItem)) (key : String) :
    Option InflightItem :=
  (getEntry obj key).join

/-- `obj[key] = v`: overwrite the binding in place if the key was ever
set, else append a new binding (JavaScript property insertion order). -/
def setProp : List (String × Option InflightItem) → String → Option InflightItem →
    List (String × Option InflightItem)
  | [], key, v => [(key, v)]
  | (k, w) :: rest, key, v =>
    if k = key then (key, v) :: rest else (k, w) :: setProp rest key v

/-- `x || d` for a possibly-absent numeric argument: `0` is falsy in
JavaScript, so both `none` and `some 0` fall back to `d`. -/
def jsOrNum (x : Option Int) (d : Int) : Int :=
  match x with
  | some n => if n = 0 then d else n
  | none => d

/-- The synchronous failures the class raises (assertion errors). -/
inductive XError where
  | duplicateKey (key : String)
  | missingKey (key : String)
  | countNotPositive (key : String) (count : Int)
  deriving Repr, DecidableEq

/-- The message carried by each assertion error, verbatim from the source. -/
def XError.message : XError → String
  | .duplicateKey key => "xflight: item " ++ key ++ " already exist"
  | .missingKey key => "xflight: removing non-existing item " ++ key
  | .countNotPositive key count =>
      "xflight: removing item " ++ key ++ " but list is empty - count " ++ toString count

/-- `Inflight.add(key, value, now?)`: asserts the key is untracked, bumps
`_count`, stores `{ start: now, lastXTime: now, value }` with
`now = now || Date.now()`, and returns `value`. -/
def Inflight.add (s : Inflight) (key : String) (value : Nat) (now : Option Int)
    (currentTime : Int) : Except XError (Inflight × Nat) :=
  if getProp s._inflights key ≠ none then
    .error (.duplicateKey key)
  else
    let n := jsOrNum now currentTime
    .ok ({ _count := s._count + 1,
           _inflights := setProp s._inflights key
             (some { start := n, lastXTime := n, value := value }) },
         value)

/-- `Inflight.get(key)`: `x && x.value`. -/
def Inflight.get (s : Inflight) (key : String) : Option Nat :=
  (getProp s._inflights key).map (·.value)

/-- `Inflight.remove(key)`: asserts the key is tracked and `_count > 0`,
decrements `_count`, and either resets the whole mapping (when the count
hits zero) or writes `undefined` over the key's binding. -/
def Inflight.remove (s : Inflight) (key : String) : Except XError Inflight :=
  if getProp s._inflights key = none then
    .error (.missingKey key)
  else if ¬ (0 < s._count) then
    .error (.countNotPositive key s._count)
  else if s._count - 1 = 0 then
    .ok { _count := 0, _inflights := [] }
  else
    .ok { _count := s._count - 1, _inflights := setProp s._inflights key none }

/-- `get isEmpty()`: `this._count === 0`. -/
def Inflight.isEmpty (s : Inflight) : Bool := s._count == 0

/-- `get count()`. -/
def Inflight.count (s : Inflight) : Int := s._count

/-- `Inflight.getStartTime(key)`: `x && x.start`. -/
def Inflight.getStartTime (s : Inflight) (key : String) : Option Int :=
  (getProp s._inflights key).map (·.start)

/-- `Inflight.time(key, now?)`: `(now || Date.now()) - x.start` for a
tracked key, `-1` otherwise. -/
def Inflight.time (s : Inflight) (key : String) (now : Option Int)
    (currentTime : Int) : Int :=
  match getProp s._inflights key with
  | some x => jsOrNum now currentTime - x.start
  | none => -1

/-- `Inflight.elapseTime(key, now?)`: alias for `time`. -/
def Inflight.elapseTime (s : Inflight) (key : String) (now : Option Int)
    (currentTime : Int) : Int :=
  s.time key now currentTime

/-- `Inflight.getCheckTime(key)`: `x && x.lastXTime`. -/
def Inflight.getCheckTime (s : Inflight) (key : String) : Option Int :=
  (getProp s._inflights key).map (·.lastXTime)

/-- `Inflight.lastCheckTime(key, now?)`: `(now || Date.now()) - x.lastXTime`
for a tracked key, `-1` otherwise. -/
def Inflight.lastCheckTime (s : Inflight) (key : String) (now : Option Int)
    (currentTime : Int) : Int :=
  match getProp s._inflights key with
  | some x => jsOrNum now currentTime - x.lastXTime
  | none => -1

/-- `Inflight.elapseCheckTime(key, now?)`: alias for `lastCheckTime`. -/
def Inflight.elapseCheckTime (s : Inflight) (key : String) (now : Option Int)
    (currentTime : Int) : Int :=
  s.lastCheckTime key now currentTime

/-- `Inflight.resetCheckTime(key?, now?)` of the TypeScript source.
`if (key)` is a truthiness test, so an empty-string key takes the same
branch as an omitted key: `Object.values(this._inflights).forEach`, which
stamps `now || Date.now()` on every present entry. -/
def Inflight.resetCheckTime (s : Inflight) (key : Option String) (now : Option Int)
    (currentTime : Int) : Inflight :=
  match key with
  | some k =>
    if k ≠ "" then
      match getProp s._inflights k with
      | some x =>
        { s with _inflights :=
            setProp s._inflights k (some { x with lastXTime := jsOrNum now currentTime }) }
      | none => s
    else
      { s with _inflights :=
          s._inflights.map fun p =>
            (p.1, p.2.map fun x => { x with lastXTime := jsOrNum now currentTime }) }
  | none =>
    { s with _inflights :=
        s._inflights.map fun p =>
          (p.1, p.2.map fun x => { x with lastXTime := jsOrNum now currentTime }) }

/-- A JavaScript value as the two `promise` assertions inspect it:
`promise id` is truthy with a function-valued `then` (an object identified
by its token `id`); `fakeThenable id` is truthy with a truthy `then` that
is NOT a function (such as `{ then: 1 }` — it passes `p && p.then` but
fails `typeof p.then === "function"`, and invoking its `then` throws a
TypeError); `nonThenable truthy` has an absent or falsy `then` (this also
covers every falsy value) and fails both assertions. -/
inductive JSVal where
  | promise (id : Nat)
  | fakeThenable (id : Nat)
  | nonThenable (truthy : Bool)
  deriving Repr, DecidableEq

/-- What the single invocation of a caller-supplied `promiseFactory` does:
throw synchronously, or return a value. -/
inductive FactoryOutcome where
  | throws (err : String)
  | returns (v : JSVal)
  deriving Repr, DecidableEq

/-- What a call to `Inflight.promise` hands back: a promise token (the
stored or freshly created one), or an already-rejected promise built by
`this.Promise.reject(err)` in the catch clause, wrapping the error message. -/
inductive PromiseResult where
  | pending (id : Nat)
  | rejected (err : String)
  deriving Repr, DecidableEq

/-- `Inflight.promise(key, promiseFactory)`.  Returns the result, the new
registry state, and whether the factory was invoked.  The assertion
`p && typeof (p as any).then === "function"` fails on both a fake
thenable and a non-thenable, throwing the assertion error the catch turns
into a rejection, before anything is registered; an error thrown by `add`
would also be caught by the `try`, though that branch is unreachable
because the entry check just failed. -/
def Inflight.promise (s : Inflight) (key : String) (factory : FactoryOutcome)
    (currentTime : Int) : PromiseResult × Inflight × Bool :=
  match getProp s._inflights key with
  | some f => (.pending f.value, s, false)
  | none =>
    match factory with
    | .throws err => (.rejected err, s, true)
    | .returns (.promise id) =>
      match s.add key id none currentTime with
      | .ok (s1, _) => (.pending id, s1, true)
      | .error e => (.rejected e.message, s, true)
    | .returns (.fakeThenable _) =>
      (.rejected ("xflight: promiseFactory for key " ++ key ++
        " didn't return a promise"), s, true)
    | .returns (.nonThenable _) =>
      (.rejected ("xflight: promiseFactory for key " ++ key ++
        " didn't return a promise"), s, true)

/-- The two settlement paths of a promise. -/
inductive SettlePath where
  | success
  | failure
  deriving Repr, DecidableEq

/-- The completion hook `promise` attaches via
`this.add(key, p).then(remove, remove)`: both settlement paths run
`() => this.remove(key)`.  An exception inside a `then` callback is
absorbed by the promise machinery (it only rejects the unobserved derived
promise), so a failing `remove` leaves the registry unchanged. -/
def Inflight.settleHook (s : Inflight) (key : String) : SettlePath → Inflight
  | .success =>
    match s.remove key with
    | .ok s1 => s1
    | .error _ => s
  | .failure =>
    match s.remove key with
    | .ok s1 => s1
    | .error _ => s

/-- Number of present (non-`undefined`) entries of the object. -/
def numPresent : List (String × Option InflightItem) → Nat
  | [] => 0
  | (_, some _) :: rest => numPresent rest + 1
  | (_, none) :: rest => numPresent rest

/-- The keys holding a present entry, in object order. -/
def presentKeys : List (String × Option InflightItem) → List String
  | [] => []
  | (k, some _) :: rest => k :: presentKeys rest
  | (_, none) :: rest => presentKeys rest

/-- All keys ever set on the object, in insertion order. -/
def keysOf (l : List (String × Option InflightItem)) : List String :=
  l.map Prod.fst

/-- The module environment the constructor probes: `optionalRequire` yields
the module when installed (`some`), `undefined` otherwise; implementations
are abstract labels. -/
structure PromiseEnv where
  bluebird : Option String
  aveazul : Option String
  globalPromise : String
  deriving Repr, DecidableEq

/-- The TypeScript constructor's choice of `this.Promise`:
`xPromise || optionalRequire("bluebird") || optionalRequire("aveazul") || globalThis.Promise`
(module objects are truthy, so `||` is `Option.getD`). -/
def constructorPromise (xPromise : Option String) (env : PromiseEnv) : String :=
  xPromise.getD (env.bluebird.getD (env.aveazul.getD env.globalPromise))

/-- One manual mutation of the registry: an `add` or a `remove` call,
with the clock reading at which it runs. -/
inductive RegOp where
  | add (key : String) (value : Nat) (now : Option Int) (currentTime : Int)
  | remove (key : String)
  deriving Repr, DecidableEq

/-- Run one call against the registry.  A call whose assertion fails
throws before mutating anything, so the state is left as it was. -/
def applyOp (s : Inflight) : RegOp → Inflight
  | .add k v n ct =>
    match s.add k v n ct with
    | .ok (s1, _) => s1
    | .error _ => s
  | .remove k =>
    match s.remove k with
    | .ok s1 => s1
    | .error _ => s

/-- Run a sequence of calls against a fresh registry. -/
def applyOps (ops : List RegOp) : Inflight :=
  ops.foldl applyOp Inflight.init

end XFlight

namespace XFlightJS

open XFlight (InflightItem Inflight getProp setProp jsOrNum XError JSVal
  FactoryOutcome PromiseResult getEntry)

/-!
The compiled JavaScript implementation, `src/lib/index.js`.  It shares the
state shape of the TypeScript class; its methods are embedded separately so
the two can be compared.
-/

/-- `add` of `lib/index.js` (textually the same as the TypeScript one). -/
def add (s : Inflight) (key : String) (value : Nat) (now : Option Int)
    (currentTime : Int) : Except XError (Inflight × Nat) :=
  if getProp s._inflights key ≠ none then
    .error (.duplicateKey key)
  else
    let n := jsOrNum now currentTime
    .ok ({ _count := s._count + 1,
           _inflights := setProp s._inflights key
             (some { start := n, lastXTime := n, value := value }) },
         value)

/-- `get` of `lib/index.js`. -/
def get (s : Inflight) (key : String) : Option Nat :=
  (getProp s._inflights key).map (·.value)

/-- `remove` of `lib/index.js`. -/
def remove (s : Inflight) (key : String) : Except XError Inflight :=
  if getProp s._inflights key = none then
    .error (.missingKey key)
  else if ¬ (0 < s._count) then
    .error (.countNotPositive key s._count)
  else if s._count - 1 = 0 then
    .ok { _count := 0, _inflights := [] }
  else
    .ok { _count := s._count - 1, _inflights := setProp s._inflights key none }

/-- `get isEmpty()` of `lib/index.js`. -/
def isEmpty (s : Inflight) : Bool := s._count == 0

/-- `get count()` of `lib/index.js`. -/
def count (s : Inflight) : Int := s._count

/-- `getStartTime` of `lib/index.js`. -/
def getStartTime (s : Inflight) (key : String) : Option Int :=
  (getProp s._inflights key).map (·.start)

/-- `time` of `lib/index.js`. -/
def time (s : Inflight) (key : String) (now : Option Int) (currentTime : Int) : Int :=
  match getProp s._inflights key with
  | some x => jsOrNum now currentTime - x.start
  | none => -1

/-- `elapseTime` of `lib/index.js`. -/
def elapseTime (s : Inflight) (key : String) (now : Option Int) (currentTime : Int) : Int :=
  time s key now currentTime

/-- `getCheckTime` of `lib/index.js`. -/
def getCheckTime (s : Inflight) (key : String) : Option Int :=
  (getProp s._inflights key).map (·.lastXTime)

/-- `lastCheckTime` of `lib/index.js`. -/
def lastCheckTime (s : Inflight) (key : String) (now : Option Int) (currentTime : Int) : Int :=
  match getProp s._inflights key with
  | some x => jsOrNum now currentTime - x.lastXTime
  | none => -1

/-- `elapseCheckTime` of `lib/index.js`. -/
def elapseCheckTime (s : Inflight) (key : String) (now : Option Int) (currentTime : Int) : Int :=
  lastCheckTime s key now currentTime

/-- `resetCheckTime(key, now)` of `lib/index.js`: it has NO reset-all
branch — it always evaluates `this._inflights[key]`.  Calling it with no
argument makes `key` the value `undefined`, and a JavaScript property
access coerces that to the property name `"undefined"`. -/
def resetCheckTime (s : Inflight) (key : Option String) (now : Option Int)
    (currentTime : Int) : Inflight :=
  let k := match key with
    | some k => k
    | none => "undefined"
  match getProp s._inflights k with
  | some x =>
    { s with _inflights :=
        setProp s._inflights k (some { x with lastXTime := jsOrNum now currentTime }) }
  | none => s

/-- The message of the TypeError the engine raises when
`this.add(key, p).then(remove, remove)` invokes a truthy but non-callable
`then` member.  The wording belongs to the runtime, not to the library's
source; the model fixes it as one abstract string, and no theorem relates
it to any library message. -/
def thenNotAFunctionMessage : String := "TypeError: then is not a function"

/-- `promise(key, func)` of `lib/index.js`: same flow as the TypeScript
method, but its assertion reads only `p && p.then` and its message says
`func` instead of `promiseFactory`.  A `nonThenable` fails the assertion
as in TypeScript.  A `fakeThenable`, however, passes it: the code then
runs `this.add(key, p).then(remove, remove)` — `add` registers the entry
and returns `p`, and calling `p.then` throws a TypeError that the `try`
catches.  The rejection is returned with the freshly added entry left in
place and no removal hook attached. -/
def promise (s : Inflight) (key : String) (factory : FactoryOutcome)
    (currentTime : Int) : PromiseResult × Inflight × Bool :=
  match getProp s._inflights key with
  | some f => (.pending f.value, s, false)
  | none =>
    match factory with
    | .throws err => (.rejected err, s, true)
    | .returns (.promise id) =>
      match add s key id none currentTime with
      | .ok (s1, _) => (.pending id, s1, true)
      | .error e => (.rejected e.message, s, true)
    | .returns (.fakeThenable id) =>
      match add s key id none currentTime with
      | .ok (s1, _) => (.rejected thenNotAFunctionMessage, s1, true)
      | .error e => (.rejected e.message, s, true)
    | .returns (.nonThenable _) =>
      (.rejected ("xflight: func for key " ++ key ++
        " didn't return a promise"), s, true)

/-- `this.Promise` in `lib/index.js`: `xPromise || Promise`, where the
module-level `Promise` is
`optionalRequire(require)("bluebird", { default: global.Promise })` —
aveazul is never probed. -/
def constructorPromise (xPromise : Option String) (env : XFlight.PromiseEnv) : String :=
  xPromise.getD (env.bluebird.getD env.globalPromise)

end XFlightJS

namespace XFlight

theorem numPresent_eq_length_presentKeys (l : List (String × Option InflightItem)) :
    numPresent l = (presentKeys l).length := by
  induction l with
  | nil => rfl
  | cons p rest ih =>
    obtain ⟨k, v⟩ := p
    cases v <;> simp [numPresent, presentKeys, ih]

theorem keysOf_nil : keysOf [] = [] := rfl

theorem keysOf_cons (k : String) (v : Option InflightItem)
    (l : List (String × Option InflightItem)) :
    keysOf ((k, v) :: l) = k :: keysOf l := rfl

theorem presentKeys_sublist (l : List (String × Option InflightItem)) :
    List.Sublist (presentKeys l) (keysOf l) := by
  induction l with
  | nil => exact List.Sublist.refl _
  | cons p rest ih =>
    obtain ⟨k, v⟩ := p
    cases v with
    | none =>
      simp only [presentKeys, keysOf_cons]
      exact ih.cons k
    | some x =>
      simp only [presentKeys, keysOf_cons]
      exact ih.cons₂ k

theorem getEntry_setProp_self (l : List (String × Option InflightItem)) (k : String)
    (v : Option InflightItem) : getEntry (setProp l k v) k = some v := by
  induction l with
  | nil => simp [setProp, getEntry]
  | cons p rest ih =>
    obtain ⟨k1, v1⟩ := p
    by_cases hk : k1 = k
    · simp [setProp, hk, getEntry]
    · simp [setProp, hk, getEntry, ih]

theorem getEntry_setProp_ne (l : List (String × Option InflightItem)) (k k2 : String)
    (v : Option InflightItem) (h : k2 ≠ k) :
    getEntry (setProp l k v) k2 = getEntry l k2 := by
  induction l with
  | nil => simp [setProp, getEntry, Ne.symm h]
  | cons p rest ih =>
    obtain ⟨k1, v1⟩ := p
    by_cases hk : k1 = k
    · subst hk
      simp [setProp, getEntry, Ne.symm h]
    · simp only [setProp, if_neg hk, getEntry]
      split
      · rfl
      · exact ih

theorem getProp_setProp_self (l : List (String × Option InflightItem)) (k : String)
    (v : Option InflightItem) : getProp (setProp l k v) k = v := by
  simp [getProp, getEntry_setProp_self]

theorem getProp_setProp_ne (l : List (String × Option InflightItem)) (k k2 : String)
    (v : Option InflightItem) (h : k2 ≠ k) :
    getProp (setProp l k v) k2 = getProp l k2 := by
  simp [getProp, getEntry_setProp_ne l k k2 v h]

theorem numPresent_setProp_add (l : List (String × Option InflightItem)) (k : String)
    (it : InflightItem) (h : getProp l k = none) :
    numPresent (setProp l k (some it)) = numPresent l + 1 := by
  induction l with
  | nil => simp [setProp, numPresent]
  | cons p rest ih =>
    obtain ⟨k1, v1⟩ := p
    by_cases hk : k1 = k
    · subst hk
      simp [getProp, getEntry] at h
      subst h
      simp [setProp, numPresent]
    · simp only [getProp, getEntry, hk, if_false] at h
      cases v1 <;> simp [setProp, hk, numPresent, ih h]

theorem numPresent_setProp_remove (l : List (String × Option InflightItem)) (k : String)
    (it : InflightItem) (h : getProp l k = some it) :
    numPresent l = numPresent (setProp l k none) + 1 := by
  induction l with
  | nil => simp [getProp, getEntry] at h
  | cons p rest ih =>
    obtain ⟨k1, v1⟩ := p
    by_cases hk : k1 = k
    · subst hk
      simp [getProp, getEntry] at h
      subst h
      simp [setProp, numPresent]
    · simp only [getProp, getEntry, hk, if_false] at h
      cases v1 <;> simp [setProp, hk, numPresent, ih h]

theorem mem_keysOf_setProp (l : List (String × Option InflightItem)) (k x : String)
    (v : Option InflightItem) (h : x ∈ keysOf (setProp l k v)) :
    x ∈ keysOf l ∨ x = k := by
  induction l with
  | nil =>
    simp only [setProp, keysOf_cons, keysOf_nil, List.mem_singleton] at h
    exact Or.inr h
  | cons p rest ih =>
    obtain ⟨k1, v1⟩ := p
    by_cases hk : k1 = k
    · subst hk
      simp only [setProp, eq_self_iff_true, if_true, keysOf_cons, List.mem_cons] at h ⊢
      tauto
    · simp only [setProp, if_neg hk, keysOf_cons, List.mem_cons] at h ⊢
      rcases h with h | h
      · exact Or.inl (Or.inl h)
      · rcases ih h with h2 | h2
        · exact Or.inl (Or.inr h2)
        · exact Or.inr h2

theorem nodup_keysOf_setProp (l : List (String × Option InflightItem)) (k : String)
    (v : Option InflightItem) (h : (keysOf l).Nodup) :
    (keysOf (setProp l k v)).Nodup := by
  induction l with
  | nil => simp [setProp, keysOf]
  | cons p rest ih =>
    obtain ⟨k1, v1⟩ := p
    simp only [keysOf_cons, List.nodup_cons] at h
    by_cases hk : k1 = k
    · subst hk
      simp only [setProp, eq_self_iff_true, if_true, keysOf_cons, List.nodup_cons]
      exact h
    · simp only [setProp, if_neg hk, keysOf_cons, List.nodup_cons]
      refine ⟨?_, ih h.2⟩
      intro hmem
      rcases mem_keysOf_setProp rest k k1 v hmem with h2 | h2
      · exact h.1 h2
      · exact hk h2

theorem add_untracked (s : Inflight) (key : String) (v : Nat) (now : Option Int)
    (ct : Int) (h : getProp s._inflights key = none) :
    s.add key v now ct =
      .ok ({ _count := s._count + 1,
             _inflights := setProp s._inflights key
               (some { start := jsOrNum now ct, lastXTime := jsOrNum now ct, value := v }) },
           v) := by
  unfold Inflight.add
  rw [if_neg (by simp [h])]

theorem remove_ok_getProp_none (s s1 : Inflight) (key : String)
    (h : s.remove key = .ok s1) : getProp s1._inflights key = none := by
  unfold Inflight.remove at h
  split at h
  · cases h
  · split at h
    · cases h
    · split at h
      · cases h
        rfl
      · cases h
        exact getProp_setProp_self s._inflights key none

theorem remove_tracked_ok (s : Inflight) (key : String) (item : InflightItem)
    (htrack : getProp s._inflights key = some item) (hcount : 0 < s._count) :
    s.remove key = .ok (if s._count - 1 = 0 then { _count := 0, _inflights := [] }
      else { _count := s._count - 1, _inflights := setProp s._inflights key none }) := by
  unfold Inflight.remove
  rw [if_neg (by simp [htrack]), if_neg (by simp [hcount])]
  split <;> simp_all

theorem settleHook_getProp_none (s : Inflight) (key : String) (item : InflightItem)
    (htrack : getProp s._inflights key = some item) (hcount : 0 < s._count)
    (path : SettlePath) :
    getProp (s.settleHook key path)._inflights key = none := by
  have hok := remove_tracked_ok s key item htrack hcount
  cases path <;>
    simp only [Inflight.settleHook, hok] <;>
    exact remove_ok_getProp_none s _ key hok

theorem promise_untracked_invoked (s : Inflight) (key : String) (f : FactoryOutcome)
    (ct : Int) (h : getProp s._inflights key = none) :
    (s.promise key f ct).2.2 = true := by
  rcases f with err | v
  · simp [Inflight.promise, h]
  · rcases v with id | id | b
    · simp only [Inflight.promise, h, add_untracked s key id none ct h]
    · simp [Inflight.promise, h]
    · simp [Inflight.promise, h]

theorem promise_untracked_registers (s : Inflight) (key : String) (pid : Nat)
    (ct : Int) (h : getProp s._inflights key = none) :
    s.promise key (.returns (.promise pid)) ct =
      (.pending pid,
       { _count := s._count + 1,
         _inflights := setProp s._inflights key
           (some { start := ct, lastXTime := ct, value := pid }) },
       true) := by
  simp only [Inflight.promise, h, add_untracked s key pid none ct h]
  rfl

/-- C1: if an entry for `key` is already tracked, `promise` returns the
identical stored future token, leaves the registry untouched, and never
invokes the factory; any two callers (any factories, any clocks) get the
very same result. -/
theorem dedup_identity (s : Inflight) (key : String) (f1 f2 : FactoryOutcome)
    (ct1 ct2 : Int) (item : InflightItem)
    (h : getProp s._inflights key = some item) :
    s.promise key f1 ct1 = (.pending item.value, s, false)
    ∧ s.promise key f1 ct1 = s.promise key f2 ct2
    ∧ s.get key = some item.value := by
  refine ⟨?_, ?_, ?_⟩
  · simp [Inflight.promise, h]
  · simp [Inflight.promise, h]
  · simp [Inflight.get, h]

theorem dedup_identity_witness :
    Inflight.promise ⟨1, [("k", some ⟨0, 0, 42⟩)]⟩ "k" (.throws "boom") 5 =
      (.pending 42, ⟨1, [("k", some ⟨0, 0, 42⟩)]⟩, false)
    ∧ Inflight.promise ⟨1, [("k", some ⟨0, 0, 42⟩)]⟩ "k" (.throws "boom") 5 =
        Inflight.promise ⟨1, [("k", some ⟨0, 0, 42⟩)]⟩ "k" (.returns (.promise 7)) 9
    ∧ Inflight.get ⟨1, [("k", some ⟨0, 0, 42⟩)]⟩ "k" = some 42 :=
  dedup_identity ⟨1, [("k", some ⟨0, 0, 42⟩)]⟩ "k" (.throws "boom")
    (.returns (.promise 7)) 5 9 ⟨0, 0, 42⟩ (by rfl)

/-- C2: the hook attached by `promise` removes the entry on both
settlement paths, so `get` then reports the key absent, a later `promise`
call for the key invokes its factory again, and a well-behaved factory
registers a fresh entry. -/
theorem settlement_removes_entry (s : Inflight) (key : String) (item : InflightItem)
    (htrack : getProp s._inflights key = some item) (hcount : 0 < s._count)
    (path : SettlePath) (f3 : FactoryOutcome) (ct : Int) (pid : Nat) :
    (s.settleHook key path).get key = none
    ∧ ((s.settleHook key path).promise key f3 ct).2.2 = true
    ∧ ((s.settleHook key path).promise key (.returns (.promise pid)) ct).2.1.get key
        = some pid := by
  have hnone := settleHook_getProp_none s key item htrack hcount path
  refine ⟨?_, ?_, ?_⟩
  · simp [Inflight.get, hnone]
  · exact promise_untracked_invoked _ key f3 ct hnone
  · rw [promise_untracked_registers _ key pid ct hnone]
    simp [Inflight.get, getProp_setProp_self]

theorem settlement_removes_entry_witness :
    (Inflight.settleHook ⟨1, [("k", some ⟨0, 0, 42⟩)]⟩ "k" SettlePath.success).get "k" = none
    ∧ ((Inflight.settleHook ⟨1, [("k", some ⟨0, 0, 42⟩)]⟩ "k"
          SettlePath.success).promise "k" (.throws "x") 5).2.2 = true
    ∧ ((Inflight.settleHook ⟨1, [("k", some ⟨0, 0, 42⟩)]⟩ "k"
          SettlePath.success).promise "k" (.returns (.promise 7)) 5).2.1.get "k"
        = some 7 :=
  settlement_removes_entry ⟨1, [("k", some ⟨0, 0, 42⟩)]⟩ "k" ⟨0, 0, 42⟩ (by rfl)
    (by decide) SettlePath.success (.throws "x") 5 7

/-- C3: a synchronously throwing factory makes `promise` return an
already-rejected future wrapping the original error through the normal
return path (the embedding of `promise` is a total function, so it throws
nothing itself); the registry is unchanged and no entry is registered. -/
theorem sync_throw_rejected (s : Inflight) (key : String) (err : String) (ct : Int)
    (h : getProp s._inflights key = none) :
    s.promise key (.throws err) ct = (.rejected err, s, true)
    ∧ s.get key = none := by
  constructor
  · simp [Inflight.promise, h]
  · simp [Inflight.get, h]

theorem sync_throw_rejected_witness :
    Inflight.promise Inflight.init "k" (.throws "boom") 5 =
      (.rejected "boom", Inflight.init, true)
    ∧ Inflight.get Inflight.init "k" = none :=
  sync_throw_rejected Inflight.init "k" "boom" 5 (by rfl)

theorem add_duplicate (s : Inflight) (key : String) (v : Nat) (now : Option Int)
    (ct : Int) (h : getProp s._inflights key ≠ none) :
    s.add key v now ct = .error (.duplicateKey key) := by
  unfold Inflight.add
  rw [if_pos h]

theorem add_ok_count (s s1 : Inflight) (key : String) (v r : Nat) (now : Option Int)
    (ct : Int) (h : s.add key v now ct = .ok (s1, r)) :
    s1._count = s._count + 1 := by
  unfold Inflight.add at h
  split at h
  · cases h
  · cases h
    rfl

theorem remove_ok_count (s s1 : Inflight) (key : String)
    (h : s.remove key = .ok s1) : s1._count = s._count - 1 := by
  unfold Inflight.remove at h
  split at h
  · cases h
  · split at h
    · cases h
    · split at h
      · rename_i hc0
        cases h
        show (0 : Int) = s._count - 1
        omega
      · cases h
        rfl

theorem resetCheckTime_count (s : Inflight) (key : Option String) (now : Option Int)
    (ct : Int) : (s.resetCheckTime key now ct)._count = s._count := by
  unfold Inflight.resetCheckTime
  rcases key with _ | k
  · rfl
  · by_cases hk : k = ""
    · simp [hk]
    · simp only [hk, ne_eq, not_false_iff, if_true]
      split <;> rfl

theorem inv_applyOp (s : Inflight) (op : RegOp)
    (h1 : s._count = (numPresent s._inflights : Int))
    (h2 : (keysOf s._inflights).Nodup) :
    (applyOp s op)._count = (numPresent (applyOp s op)._inflights : Int)
    ∧ (keysOf (applyOp s op)._inflights).Nodup := by
  cases op with
  | add k v n ct =>
    by_cases hk : getProp s._inflights k = none
    · simp only [applyOp, add_untracked s k v n ct hk]
      constructor
      · have := numPresent_setProp_add s._inflights k
          { start := jsOrNum n ct, lastXTime := jsOrNum n ct, value := v } hk
        simp only [this]
        push_cast
        omega
      · exact nodup_keysOf_setProp _ k _ h2
    · simp only [applyOp, add_duplicate s k v n ct hk]
      exact ⟨h1, h2⟩
  | remove k =>
    rcases hk : getProp s._inflights k with _ | item
    · have herr : s.remove k = .error (.missingKey k) := by
        unfold Inflight.remove
        rw [if_pos hk]
      simp only [applyOp, herr]
      exact ⟨h1, h2⟩
    · by_cases hc : 0 < s._count
      · have hok := remove_tracked_ok s k item hk hc
        simp only [applyOp, hok]
        split
        · exact ⟨by simp [numPresent], by simp [keysOf]⟩
        · constructor
          · have hnp := numPresent_setProp_remove s._inflights k item hk
            show s._count - 1 = (numPresent (setProp s._inflights k none) : Int)
            omega
          · exact nodup_keysOf_setProp _ k _ h2
      · have herr : s.remove k = .error (.countNotPositive k s._count) := by
          unfold Inflight.remove
          rw [if_neg (by simp [hk]), if_pos hc]
        simp only [applyOp, herr]
        exact ⟨h1, h2⟩

theorem inv_foldl (ops : List RegOp) (s : Inflight)
    (h1 : s._count = (numPresent s._inflights : Int))
    (h2 : (keysOf s._inflights).Nodup) :
    (ops.foldl applyOp s)._count = (numPresent (ops.foldl applyOp s)._inflights : Int)
    ∧ (keysOf (ops.foldl applyOp s)._inflights).Nodup := by
  induction ops generalizing s with
  | nil => exact ⟨h1, h2⟩
  | cons op rest ih =>
    simp only [List.foldl_cons]
    obtain ⟨g1, g2⟩ := inv_applyOp s op h1 h2
    exact ih _ g1 g2

/-- C5: after any sequence of `add`/`remove` calls the running `_count`
equals the number of distinct keys holding a present entry, `isEmpty`
holds exactly when the count is zero, a successful `add` is a `+1` on the
count, a successful `remove` is a `−1`, and `resetCheckTime` (the only
other state-returning operation; the remaining methods are pure queries)
never touches the count. -/
theorem count_invariant (ops : List RegOp) :
    (applyOps ops).count = ((presentKeys (applyOps ops)._inflights).length : Int)
    ∧ (presentKeys (applyOps ops)._inflights).Nodup
    ∧ ((applyOps ops).isEmpty = true ↔ (applyOps ops).count = 0)
    ∧ (∀ key v now ct s1 r, (applyOps ops).add key v now ct = .ok (s1, r) →
        s1.count = (applyOps ops).count + 1)
    ∧ (∀ key s1, (applyOps ops).remove key = .ok s1 →
        s1.count = (applyOps ops).count - 1)
    ∧ (∀ key now ct, ((applyOps ops).resetCheckTime key now ct).count
        = (applyOps ops).count) := by
  obtain ⟨g1, g2⟩ := inv_foldl ops Inflight.init rfl (by simp [Inflight.init, keysOf])
  refine ⟨?_, ?_, ?_, ?_, ?_, ?_⟩
  · rw [Inflight.count, applyOps] at *
    rw [g1, numPresent_eq_length_presentKeys]
  · exact ((presentKeys_sublist _).nodup) g2
  · simp [Inflight.isEmpty, Inflight.count]
  · intro key v now ct s1 r h
    exact add_ok_count _ s1 key v r now ct h
  · intro key s1 h
    exact remove_ok_count _ s1 key h
  · intro key now ct
    exact resetCheckTime_count _ key now ct

theorem count_invariant_witness :
    Inflight.count ⟨2, [("a", some ⟨10, 10, 1⟩), ("b", some ⟨10, 10, 2⟩)]⟩ =
      (applyOps [RegOp.add "a" 1 none 10]).count + 1 :=
  (count_invariant [RegOp.add "a" 1 none 10]).2.2.2.1 "b" 2 none 10
    ⟨2, [("a", some ⟨10, 10, 1⟩), ("b", some ⟨10, 10, 2⟩)]⟩ 2 (by rfl)

theorem getEntry_mapVals (l : List (String × Option InflightItem))
    (g : Option InflightItem → Option InflightItem) (k : String) :
    getEntry (l.map fun p => (p.1, g p.2)) k = (getEntry l k).map g := by
  induction l with
  | nil => rfl
  | cons p rest ih =>
    obtain ⟨k1, v1⟩ := p
    by_cases hk : k1 = k <;> simp [getEntry, hk, ih]

/-- C6 counterexample: the claim says a supplied `now` is always stored,
but `now = now || Date.now()` treats the timestamp `0` as falsy, so
`add("k", v, 0)` at clock reading `100` stores `start = 100`, not the
supplied `0`. -/
theorem add_zero_now_cex :
    Inflight.add Inflight.init "k" 7 (some 0) 100 =
      .ok ({ _count := 1,
             _inflights := [("k", some { start := 100, lastXTime := 100, value := 7 })] },
           7)
    ∧ (100 : Int) ≠ 0 :=
  ⟨by rfl, by decide⟩

/-- C6 (amended): `add` raises `DuplicateKeyError` when the key is
tracked; otherwise it increments the count, stores the supplied `now` as
both `start` and `lastXTime` when `now` is given and nonzero (a zero
`now`, being falsy, falls back to the clock), uses the clock when `now`
is omitted, and returns the added future. -/
theorem add_spec (s : Inflight) (key : String) (v : Nat) (ct : Int) :
    (getProp s._inflights key ≠ none →
        ∀ now, s.add key v now ct = .error (.duplicateKey key))
    ∧ (getProp s._inflights key = none →
        ∀ now n, (now = some n ∧ n ≠ 0) ∨ (now = none ∧ n = ct) →
          ∃ s1, s.add key v now ct = .ok (s1, v)
            ∧ s1.count = s.count + 1
            ∧ s1.getStartTime key = some n
            ∧ s1.getCheckTime key = some n) := by
  constructor
  · intro h now
    exact add_duplicate s key v now ct h
  · intro h now n hn
    have hj : jsOrNum now ct = n := by
      rcases hn with ⟨rfl, hne⟩ | ⟨rfl, rfl⟩
      · simp [jsOrNum, hne]
      · rfl
    refine ⟨_, add_untracked s key v now ct h, rfl, ?_, ?_⟩
    · simp [Inflight.getStartTime, getProp_setProp_self, hj]
    · simp [Inflight.getCheckTime, getProp_setProp_self, hj]

theorem add_spec_witness :
    ∃ s1, Inflight.add Inflight.init "k" 7 (some 8) 100 = .ok (s1, 7)
      ∧ s1.count = Inflight.count Inflight.init + 1
      ∧ s1.getStartTime "k" = some 8
      ∧ s1.getCheckTime "k" = some 8 :=
  (add_spec Inflight.init "k" 7 100).2 (by rfl) (some 8) 8 (Or.inl ⟨rfl, by decide⟩)

/-- C7: `remove` raises `MissingKeyError` on an untracked key, raises the
internal-consistency error when the count is not positive although an
entry exists, and otherwise decrements the count, leaves the key reading
absent, and resets the backing mapping entirely exactly when the count
reaches zero. -/
theorem remove_spec (s : Inflight) (key : String) :
    (getProp s._inflights key = none → s.remove key = .error (.missingKey key))
    ∧ (∀ item, getProp s._inflights key = some item → ¬ 0 < s._count →
        s.remove key = .error (.countNotPositive key s._count))
    ∧ (∀ item, getProp s._inflights key = some item → 0 < s._count →
        ∃ s1, s.remove key = .ok s1
          ∧ s1.count = s.count - 1
          ∧ s1.get key = none
          ∧ (s.count - 1 = 0 → s1._inflights = [])
          ∧ (s.count - 1 ≠ 0 → s1._inflights = setProp s._inflights key none)) := by
  refine ⟨?_, ?_, ?_⟩
  · intro h
    unfold Inflight.remove
    rw [if_pos h]
  · intro item h hc
    unfold Inflight.remove
    rw [if_neg (by simp [h]), if_pos hc]
  · intro item h hc
    have hok := remove_tracked_ok s key item h hc
    by_cases h0 : s._count - 1 = 0
    · rw [hok, if_pos h0]
      refine ⟨_, rfl, ?_, rfl, fun _ => rfl, fun hne => absurd h0 hne⟩
      show (0 : Int) = s._count - 1
      omega
    · rw [hok, if_neg h0]
      refine ⟨_, rfl, rfl, ?_, fun hh => absurd hh h0, fun _ => rfl⟩
      simp [Inflight.get, getProp_setProp_self]

theorem remove_spec_witness :
    ∃ s1, Inflight.remove ⟨1, [("k", some ⟨0, 0, 5⟩)]⟩ "k" = .ok s1
      ∧ s1.count = Inflight.count ⟨1, [("k", some ⟨0, 0, 5⟩)]⟩ - 1
      ∧ s1.get "k" = none
      ∧ (Inflight.count ⟨1, [("k", some ⟨0, 0, 5⟩)]⟩ - 1 = 0 → s1._inflights = [])
      ∧ (Inflight.count ⟨1, [("k", some ⟨0, 0, 5⟩)]⟩ - 1 ≠ 0 →
          s1._inflights = setProp [("k", some ⟨0, 0, 5⟩)] "k" none) :=
  (remove_spec ⟨1, [("k", some ⟨0, 0, 5⟩)]⟩ "k").2.2 ⟨0, 0, 5⟩ (by rfl) (by decide)

/-- C8 counterexample: instantiating the claim at `now = 5` makes the
supplied start `now − 5 = 0`, which `now || Date.now()` drops as falsy:
at clock reading `100` the stored start is `100` and the elapsed time at
`now = 5` is `−95`, not `5`. -/
theorem elapsed_time_cex :
    Inflight.add Inflight.init "k" 3 (some ((5 : Int) - 5)) 100 =
      .ok ({ _count := 1,
             _inflights := [("k", some { start := 100, lastXTime := 100, value := 3 })] },
           3)
    ∧ Inflight.time
        { _count := 1,
          _inflights := [("k", some { start := 100, lastXTime := 100, value := 3 })] }
        "k" (some 5) 200 = -95
    ∧ ((-95 : Int) ≠ 5) :=
  ⟨by rfl, by rfl, by decide⟩

/-- C8 (amended): for timestamps clear of the JavaScript falsy zero
(`now ≠ 0` and `now − 5 ≠ 0`), `add(K, v, now − 5)` followed by
`time(K, now)` yields `5`; on an untracked key `time` and `lastCheckTime`
return the sentinel `−1` for every clock argument. -/
theorem elapsed_time_spec (s : Inflight) (key k2 : String) (v : Nat)
    (now ct ct2 : Int) (h : getProp s._inflights key = none)
    (h5 : now - 5 ≠ 0) (hn : now ≠ 0) :
    (∃ s1, s.add key v (some (now - 5)) ct = .ok (s1, v)
      ∧ s1.time key (some now) ct2 = 5)
    ∧ (∀ now2 ct3, getProp s._inflights k2 = none →
        s.time k2 now2 ct3 = -1 ∧ s.lastCheckTime k2 now2 ct3 = -1) := by
  constructor
  · refine ⟨_, add_untracked s key v (some (now - 5)) ct h, ?_⟩
    simp only [Inflight.time, getProp_setProp_self, jsOrNum, h5, if_false, hn]
    ring
  · intro now2 ct3 hk2
    constructor
    · simp [Inflight.time, hk2]
    · simp [Inflight.lastCheckTime, hk2]

theorem elapsed_time_spec_witness :
    (∃ s1, Inflight.add Inflight.init "k" 3 (some ((7 : Int) - 5)) 100 = .ok (s1, 3)
      ∧ s1.time "k" (some 7) 200 = 5)
    ∧ (∀ now2 ct3, getProp Inflight.init._inflights "z" = none →
        Inflight.time Inflight.init "z" now2 ct3 = -1
        ∧ Inflight.lastCheckTime Inflight.init "z" now2 ct3 = -1) :=
  elapsed_time_spec Inflight.init "k" "z" 3 7 100 200 (by rfl) (by decide) (by decide)

/-- C9 counterexample: `resetCheckTime` called with the empty-string key —
untracked here — is not a silent no-op: `if (key)` sees `""` as falsy and
takes the reset-all branch, stamping the unrelated entry `"a"`. -/
theorem resetCheckTime_empty_key_cex :
    Inflight.get
        { _count := 1,
          _inflights := [("a", some { start := 1, lastXTime := 1, value := 5 })] } "" = none
    ∧ Inflight.resetCheckTime
        { _count := 1,
          _inflights := [("a", some { start := 1, lastXTime := 1, value := 5 })] }
        (some "") (some 50) 999 =
        { _count := 1,
          _inflights := [("a", some { start := 1, lastXTime := 50, value := 5 })] }
    ∧ ({ _count := 1,
         _inflights := [("a", some { start := 1, lastXTime := 50, value := 5 })] } : Inflight) ≠
        { _count := 1,
          _inflights := [("a", some { start := 1, lastXTime := 1, value := 5 })] } :=
  ⟨by rfl, by rfl, by decide⟩

/-- C9 (amended): for a nonempty key, `resetCheckTime` stamps the tracked
entry's `lastXTime` with `now || Date.now()` and changes no other entry,
and is a silent no-op on an untracked key; an omitted key (like the falsy
empty string) stamps every tracked entry with the same timestamp; the
count is never touched — the method mutates in place and returns the
registry itself, which the embedding renders by returning the updated
state. -/
theorem resetCheckTime_spec (s : Inflight) (now : Option Int) (ct : Int) :
    (∀ key x, key ≠ "" → getProp s._inflights key = some x →
        (s.resetCheckTime (some key) now ct).getCheckTime key = some (jsOrNum now ct)
        ∧ ∀ k2, k2 ≠ key →
            (s.resetCheckTime (some key) now ct).get k2 = s.get k2)
    ∧ (∀ key, key ≠ "" → getProp s._inflights key = none →
        s.resetCheckTime (some key) now ct = s)
    ∧ (∀ k2 x2, getProp s._inflights k2 = some x2 →
        (s.resetCheckTime none now ct).getCheckTime k2 = some (jsOrNum now ct))
    ∧ (∀ key, (s.resetCheckTime key now ct)._count = s._count) := by
  refine ⟨?_, ?_, ?_, ?_⟩
  · intro key x hk hx
    have hred : s.resetCheckTime (some key) now ct
        = { s with _inflights := setProp s._inflights key (some { x with lastXTime := jsOrNum now ct }) } := by
      simp only [Inflight.resetCheckTime]
      rw [if_pos hk, hx]
    rw [hred]
    constructor
    · simp [Inflight.getCheckTime, getProp_setProp_self]
    · intro k2 hk2
      simp [Inflight.get, getProp_setProp_ne s._inflights key k2 _ hk2]
  · intro key hk hx
    simp only [Inflight.resetCheckTime]
    rw [if_pos hk, hx]
  · intro k2 x2 hx2
    rw [getProp] at hx2
    have he : getEntry s._inflights k2 = some (some x2) := Option.join_eq_some.mp hx2
    simp [Inflight.resetCheckTime, Inflight.getCheckTime, getProp, getEntry_mapVals, he]
  · intro key
    exact resetCheckTime_count s key now ct

theorem resetCheckTime_spec_witness :
    Inflight.getCheckTime
        (Inflight.resetCheckTime
          { _count := 1,
            _inflights := [("a", some { start := 1, lastXTime := 1, value := 5 })] }
          (some "a") (some 50) 999) "a" = some 50
    ∧ ∀ k2, k2 ≠ "a" →
        Inflight.get
          (Inflight.resetCheckTime
            { _count := 1,
              _inflights := [("a", some { start := 1, lastXTime := 1, value := 5 })] }
            (some "a") (some 50) 999) k2 =
        Inflight.get
          { _count := 1,
            _inflights := [("a", some { start := 1, lastXTime := 1, value := 5 })] } k2 :=
  (resetCheckTime_spec
      { _count := 1,
        _inflights := [("a", some { start := 1, lastXTime := 1, value := 5 })] }
      (some 50) 999).1 "a" { start := 1, lastXTime := 1, value := 5 }
    (by decide) (by rfl)

end XFlight

/-- C10 counterexample: the two implementations are not behaviorally
equivalent.  Four concrete divergences: `resetCheckTime` with no key
resets every tracked entry in the TypeScript build but is a no-op lookup
of the property name `"undefined"` in the JavaScript build; the
constructor probes aveazul only in the TypeScript build, so with bluebird
absent and aveazul present the two pick different Promise
implementations; the rejection message for a non-promise factory
result says `promiseFactory` in one and `func` in the other; and a
factory returning a fake thenable (truthy, non-callable `then`) leaves
the two registries in different states — TypeScript rejects at its
assertion with nothing registered, JavaScript passes `p && p.then`,
registers the entry, and only then hits the TypeError, leaving a stale
hookless entry behind. -/
theorem ts_js_divergence_cex :
    XFlight.Inflight.resetCheckTime
        { _count := 1,
          _inflights := [("a", some { start := 1, lastXTime := 1, value := 5 })] }
        none (some 50) 999
      ≠ XFlightJS.resetCheckTime
        { _count := 1,
          _inflights := [("a", some { start := 1, lastXTime := 1, value := 5 })] }
        none (some 50) 999
    ∧ XFlight.constructorPromise none
        { bluebird := none, aveazul := some "aveazul", globalPromise := "native" }
      ≠ XFlightJS.constructorPromise none
        { bluebird := none, aveazul := some "aveazul", globalPromise := "native" }
    ∧ (XFlight.Inflight.promise XFlight.Inflight.init "k"
        (.returns (.nonThenable true)) 0).1
      ≠ (XFlightJS.promise XFlight.Inflight.init "k"
        (.returns (.nonThenable true)) 0).1
    ∧ (XFlightJS.promise XFlight.Inflight.init "k"
        (.returns (.fakeThenable 9)) 7).2.1
      ≠ (XFlight.Inflight.promise XFlight.Inflight.init "k"
        (.returns (.fakeThenable 9)) 7).2.1 :=
  ⟨by decide, by decide, by decide, by decide⟩

/-- C10 (amended): the TypeScript and JavaScript implementations agree on
`add`, `get`, `remove`, `isEmpty`, `count`, every timing query, and
`resetCheckTime` with a nonempty key; `promise` agrees on a throwing
factory and on one returning a promise, and on a non-thenable result
(absent or falsy `then`) the two produce the same registry state and
both reject, differing only in the message's word for the factory; an
explicitly injected Promise implementation is honored identically, and
the constructors agree whenever aveazul is absent.  They differ on
`resetCheckTime` with an omitted or empty key, on constructor probing
when aveazul is present and bluebird absent, in that message wording,
and on a factory returning a fake thenable (truthy, with a truthy
non-callable `then`): TypeScript rejects at its assertion and registers
nothing, while JavaScript passes `p && p.then`, registers the entry, and
returns the rejection from the TypeError that `.then(remove, remove)`
then raises, leaving the stale hookless entry in the registry — only on
an already-tracked key do the two still agree there. -/
theorem ts_js_equiv :
    (∀ s key v now ct, XFlightJS.add s key v now ct = XFlight.Inflight.add s key v now ct)
    ∧ (∀ s key, XFlightJS.get s key = XFlight.Inflight.get s key)
    ∧ (∀ s key, XFlightJS.remove s key = XFlight.Inflight.remove s key)
    ∧ (∀ s, XFlightJS.isEmpty s = XFlight.Inflight.isEmpty s)
    ∧ (∀ s, XFlightJS.count s = XFlight.Inflight.count s)
    ∧ (∀ s key, XFlightJS.getStartTime s key = XFlight.Inflight.getStartTime s key)
    ∧ (∀ s key now ct, XFlightJS.time s key now ct = XFlight.Inflight.time s key now ct)
    ∧ (∀ s key now ct,
        XFlightJS.elapseTime s key now ct = XFlight.Inflight.elapseTime s key now ct)
    ∧ (∀ s key, XFlightJS.getCheckTime s key = XFlight.Inflight.getCheckTime s key)
    ∧ (∀ s key now ct,
        XFlightJS.lastCheckTime s key now ct = XFlight.Inflight.lastCheckTime s key now ct)
    ∧ (∀ s key now ct,
        XFlightJS.elapseCheckTime s key now ct = XFlight.Inflight.elapseCheckTime s key now ct)
    ∧ (∀ s key now ct, key ≠ "" →
        XFlightJS.resetCheckTime s (some key) now ct
          = XFlight.Inflight.resetCheckTime s (some key) now ct)
    ∧ (∀ s key err ct,
        XFlightJS.promise s key (.throws err) ct = XFlight.Inflight.promise s key (.throws err) ct)
    ∧ (∀ s key pid ct,
        XFlightJS.promise s key (.returns (.promise pid)) ct
          = XFlight.Inflight.promise s key (.returns (.promise pid)) ct)
    ∧ (∀ s key b ct,
        (XFlightJS.promise s key (.returns (.nonThenable b)) ct).2
          = (XFlight.Inflight.promise s key (.returns (.nonThenable b)) ct).2)
    ∧ (∀ s key id ct, XFlight.getProp s._inflights key = none →
        XFlight.Inflight.promise s key (.returns (.fakeThenable id)) ct
          = (.rejected ("xflight: promiseFactory for key " ++ key ++
              " didn't return a promise"), s, true)
        ∧ XFlightJS.promise s key (.returns (.fakeThenable id)) ct
          = (.rejected XFlightJS.thenNotAFunctionMessage,
             { _count := s._count + 1,
               _inflights := XFlight.setProp s._inflights key
                 (some { start := ct, lastXTime := ct, value := id }) },
             true))
    ∧ (∀ s key id ct, XFlight.getProp s._inflights key ≠ none →
        XFlightJS.promise s key (.returns (.fakeThenable id)) ct
          = XFlight.Inflight.promise s key (.returns (.fakeThenable id)) ct)
    ∧ (∀ x env, XFlightJS.constructorPromise (some x) env = XFlight.constructorPromise (some x) env)
    ∧ (∀ x env, env.aveazul = none →
        XFlightJS.constructorPromise x env = XFlight.constructorPromise x env) := by
  refine ⟨fun s key v now ct => rfl, fun s key => rfl, fun s key => rfl, fun s => rfl,
    fun s => rfl, fun s key => rfl, fun s key now ct => rfl, fun s key now ct => rfl,
    fun s key => rfl, fun s key now ct => rfl, fun s key now ct => rfl, ?_, ?_, ?_, ?_,
    ?_, ?_, fun x env => rfl, ?_⟩
  · intro s key now ct hk
    simp only [XFlightJS.resetCheckTime, XFlight.Inflight.resetCheckTime]
    rw [if_pos hk]
  · intro s key err ct
    rfl
  · intro s key pid ct
    rfl
  · intro s key b ct
    rcases hx : XFlight.getProp s._inflights key with _ | f <;>
      simp [XFlightJS.promise, XFlight.Inflight.promise, hx]
  · intro s key id ct h
    have hadd : XFlightJS.add s key id none ct = XFlight.Inflight.add s key id none ct := rfl
    constructor
    · simp [XFlight.Inflight.promise, h]
    · simp only [XFlightJS.promise, h, hadd, XFlight.add_untracked s key id none ct h]
      rfl
  · intro s key id ct h
    rcases hx : XFlight.getProp s._inflights key with _ | f
    · exact absurd hx h
    · simp [XFlightJS.promise, XFlight.Inflight.promise, hx]
  · intro x env h
    rcases x with _ | p
    · simp [XFlightJS.constructorPromise, XFlight.constructorPromise, h]
    · rfl

theorem ts_js_equiv_witness :
    XFlightJS.resetCheckTime
        { _count := 1,
          _inflights := [("a", some { start := 1, lastXTime := 1, value := 5 })] }
        (some "a") (some 50) 999
      = XFlight.Inflight.resetCheckTime
        { _count := 1,
          _inflights := [("a", some { start := 1, lastXTime := 1, value := 5 })] }
        (some "a") (some 50) 999 :=
  ts_js_equiv.2.2.2.2.2.2.2.2.2.2.2.1
    { _count := 1,
      _inflights := [("a", some { start := 1, lastXTime := 1, value := 5 })] }
    "a" (some 50) 999 (by decide)
